import Mathlib

/-!
Verification of the `deepblu` dependency-injection container and `Result`
type, shallowly embedded from `src/deepblu`.

Interfaces are identity-keyed (`Nat` ids model Python object identity of the
class/function used as a key).  Invoking a provider allocates a fresh
instance, modelled by stamping it with a global counter, so that two distinct
invocations of the same provider yield values distinguishable by identity,
exactly as two Python object allocations are.
-/

namespace Deepblu

/-- Identity of an interface key (a class or function used as a dict key). -/
abbrev Interface := Nat

/-- Identity of a concrete provider (a class or factory function). -/
abbrev ProviderId := Nat

/-- A runtime value: an instance of a provider tagged with the allocation
stamp that makes it identity-distinct, or a list of such instances (as
produced by the synthetic provider of `provide_many`, which only ever
invokes plain providers from its `impls` list). -/
inductive Value where
  | inst : ProviderId → Nat → Value
  | vlist : List (ProviderId × Nat) → Value
deriving DecidableEq, Repr

/-- A provider as stored in the registry: either a plain class/factory
(invoking it allocates one fresh instance of that provider), or the
synthetic closure built by `provide_many` (invoking it instantiates each
listed implementation in order and returns the list). -/
inductive ProviderDesc where
  | simple : ProviderId → ProviderDesc
  | many : List ProviderId → ProviderDesc
deriving DecidableEq, Repr

/-- Python-dict lookup on an association list keyed by identity. -/
def dlookup {α : Type} : List (Nat × α) → Nat → Option α
  | [], _ => none
  | (k, v) :: rest, i => if k = i then some v else dlookup rest i

/-- Python-dict assignment `d[k] = v`: replaces the value in place if the key
is present (preserving insertion order), otherwise appends the new entry. -/
def dinsert {α : Type} : List (Nat × α) → Nat → α → List (Nat × α)
  | [], k, v => [(k, v)]
  | (k', v') :: rest, k, v =>
      if k' = k then (k, v) :: rest else (k', v') :: dinsert rest k v

/-- Invoke the `provide_many` closure body
`lambda: [provider() for provider in impls]`: instantiate each listed
implementation in order, threading the allocation counter. -/
def invokeMany : List ProviderId → Nat → List (ProviderId × Nat) × Nat
  | [], n => ([], n)
  | p :: ps, n =>
      let rest := invokeMany ps (n + 1)
      ((p, n) :: rest.1, rest.2)

/-- Invoke a provider, producing its value and the next allocation stamp. -/
def invoke : ProviderDesc → Nat → Value × Nat
  | ProviderDesc.simple p, n => (Value.inst p n, n + 1)
  | ProviderDesc.many ps, n =>
      let r := invokeMany ps n
      (Value.vlist r.1, r.2)

/-- The `ProviderRegistry` of `src/deepblu/di/registry.py`: the bindings map
`__bindings__`, the memoized instance cache `__instances__`, plus the
allocation counter that models object identity of freshly created
instances. -/
structure ProviderRegistry where
  bindings : List (Interface × ProviderDesc)
  instances : List (Interface × Value)
  fresh : Nat
deriving DecidableEq, Repr

/-- `ProviderRegistry.__init__`: empty bindings and instance cache. -/
def ProviderRegistry.empty : ProviderRegistry := ⟨[], [], 0⟩

/-- `ProviderRegistry.bind`: `self.__bindings__[interface] = impl`.  The
instance cache is untouched. -/
def ProviderRegistry.bind (r : ProviderRegistry) (interface : Interface)
    (impl : ProviderDesc) : ProviderRegistry :=
  { r with bindings := dinsert r.bindings interface impl }

/-- `ProviderRegistry.get`: try `__instances__[interface]`; on `KeyError`
invoke `__bindings__[interface]()`; store the result back into
`__instances__` and return it.  `none` models the uncaught `KeyError` when
the interface is unbound and uncached. -/
def ProviderRegistry.get (r : ProviderRegistry) (interface : Interface) :
    Option (Value × ProviderRegistry) :=
  match dlookup r.instances interface with
  | some v =>
      some (v, { r with instances := dinsert r.instances interface v })
  | none =>
      match dlookup r.bindings interface with
      | some d =>
          let iv := invoke d r.fresh
          some (iv.1,
            { r with instances := dinsert r.instances interface iv.1,
                     fresh := iv.2 })
      | none => none

/-- Modelled from the spec: the lazy-factory `get` convention of §4.1, which
returns the bound provider callable itself, unresolved.  In `src/` this
convention survives as the raw `registry.bindings[...]` lookups performed by
the inject wrappers of `di/injection.py` and `di/__init__.py`, which invoke
the returned provider themselves. -/
def lazyGet (r : ProviderRegistry) (interface : Interface) :
    Option ProviderDesc :=
  dlookup r.bindings interface

/-- One entry of a `bind_all` argument list: either an explicit
`(interface, implementation)` tuple or a bare provider bound to itself. -/
inductive BindingSpec where
  | pair : Interface → ProviderDesc → BindingSpec
  | bare : ProviderId → BindingSpec
deriving DecidableEq, Repr

/-- The body of the `bind_all` loop for a single entry: tuples are unpacked,
a bare provider is bound to itself. -/
def bindOne (r : ProviderRegistry) : BindingSpec → ProviderRegistry
  | BindingSpec.pair i d => r.bind i d
  | BindingSpec.bare p => r.bind p (ProviderDesc.simple p)

/-- `bind_all(*providers)` from `di/injection.py` and `di.py`. -/
def bindAll (providers : List BindingSpec) (r : ProviderRegistry) :
    ProviderRegistry :=
  providers.foldl bindOne r

/-- `provide_many(interface, impls)`: the pair of the interface and the
synthetic provider `lambda: [provider() for provider in impls]`. -/
def provideMany (interface : Interface) (impls : List ProviderId) :
    Interface × ProviderDesc :=
  (interface, ProviderDesc.many impls)

/-- The static metadata that the `module` decorator stores on the class:
`cls.imports` and `cls.providers`. -/
structure ModuleMeta where
  imports : List Nat
  providers : List BindingSpec
deriving DecidableEq, Repr

/-- The `module` decorator of `src/deepblu/di/module.py` applied to a module
class: records `imports` and `providers` as static metadata and calls
`bind_all(*cls.providers)` on the process-wide registry.  Imports are not
registered. -/
def moduleDecorator (imports : List Nat) (providers : List BindingSpec)
    (r : ProviderRegistry) : ModuleMeta × ProviderRegistry :=
  (⟨imports, providers⟩, bindAll providers r)

/-- Identity of a parameter name in a callable's signature. -/
abbrev PName := Nat

/-- The dependency-resolution loop of the `inject` wrapper in
`src/deepblu/di.py` (singleton convention): for each annotated parameter, if
the annotated type is in `registry.bindings` and the name is not already in
`kwargs`, set `kwargs[name] = registry[provider]`, i.e. resolve through the
memoizing `ProviderRegistry.get`.  Returns the merged kwargs and the updated
registry.  The inner `none` branch is unreachable: the guard guarantees the
interface is bound, so `get` succeeds. -/
def injectMergeS : List (PName × Interface) → List (PName × Value) →
    ProviderRegistry → List (PName × Value) × ProviderRegistry
  | [], kwargs, r => (kwargs, r)
  | (name, ann) :: rest, kwargs, r =>
      if (dlookup r.bindings ann).isSome && (dlookup kwargs name).isNone then
        match r.get ann with
        | some (v, r') => injectMergeS rest (dinsert kwargs name v) r'
        | none => injectMergeS rest kwargs r
      else injectMergeS rest kwargs r

/-- The dependency-resolution loop of the `inject` wrapper in
`src/deepblu/di/injection.py` and `src/deepblu/di/__init__.py` (factory
convention): `kwargs[name] = registry.bindings[impl]()` invokes the bound
provider directly, allocating a fresh instance and bypassing the
`__instances__` cache. -/
def injectMergeF : List (PName × Interface) → List (PName × Value) →
    ProviderRegistry → List (PName × Value) × ProviderRegistry
  | [], kwargs, r => (kwargs, r)
  | (name, ann) :: rest, kwargs, r =>
      match dlookup r.bindings ann with
      | some d =>
          if (dlookup kwargs name).isNone then
            let iv := invoke d r.fresh
            injectMergeF rest (dinsert kwargs name iv.1)
              { r with fresh := iv.2 }
          else injectMergeF rest kwargs r
      | none => injectMergeF rest kwargs r

/-- Python argument binding for `func(*args, **kwargs)` on a callable whose
declared parameters are `params` (in declaration order, no defaults, no
varargs): positional arguments bind to the leading parameters in order;
keyword arguments bind by name; a parameter receiving both a positional and
a keyword value, an unexpected keyword, an excess positional argument, or a
missing parameter raises `TypeError`, modelled as `none`. -/
def bindArgs (params : List PName) (args : List Value)
    (kwargs : List (PName × Value)) : Option (List (PName × Value)) :=
  if params.length < args.length then none
  else
    let posNames := params.take args.length
    if kwargs.any (fun kv =>
        posNames.contains kv.1 || !(params.contains kv.1)) then none
    else if params.all (fun p =>
        posNames.contains p || (dlookup kwargs p).isSome) then
      some (posNames.zip args ++ kwargs)
    else none

/-- A full invocation of a callable decorated with `inject` from
`src/deepblu/di.py`: run the resolution loop over the declared annotations,
then call the underlying function with the original positional arguments and
the merged kwargs.  The first component is the argument mapping the
underlying callable receives (`none` models the `TypeError` raised when the
merged arguments do not bind). -/
def injectCallS (params : List PName) (anns : List (PName × Interface))
    (args : List Value) (kwargs : List (PName × Value))
    (r : ProviderRegistry) :
    Option (List (PName × Value)) × ProviderRegistry :=
  let m := injectMergeS anns kwargs r
  (bindArgs params args m.1, m.2)

/-- A Python value as carried by `Result`: `None`, an integer or a string. -/
inductive PyV where
  | vnone
  | vint : Int → PyV
  | vstr : String → PyV
deriving DecidableEq, Repr

/-- An exception object: its class, its constructor arguments (`.args`) and
an object id making distinct instances identity-distinct. -/
structure ExcObj where
  cls : String
  args : List PyV
  oid : Nat
deriving DecidableEq, Repr

/-- The `Result` of `src/deepblu/result/__init__.py`: the private fields
`__value`, `__error` and `__is_ok`. -/
structure Result where
  value : PyV
  error : Option ExcObj
  is_ok : Bool
deriving DecidableEq, Repr

/-- `Result.__init__`: raises `ValueError` when `is_ok` and `error` is not
`None`, otherwise stores the three fields. -/
def resultMk (value : PyV) (error : Option ExcObj) (isOk : Bool) :
    Except String Result :=
  if isOk && error.isSome then
    Except.error "Result cannot be both ok and error"
  else Except.ok ⟨value, error, isOk⟩

/-- Python's default `==` on `Optional` exception objects: `None == None` is
true, `None` never equals an exception, and two exceptions compare by
identity (default `object.__eq__`). -/
def pyEqOptExc : Option ExcObj → Option ExcObj → Bool
  | none, none => true
  | some x, some y => x == y
  | _, _ => false

/-- `Result.__eq_result__` from `src/deepblu/result/__init__.py`:
`is_equal_error` is "both errors non-null, same class (`type(...) is
type(...)`), same `.args`" or the default comparison `self.error ==
other.error`; the results are equal when the values compare equal and the
errors compare equal. -/
def eqResult (a b : Result) : Bool :=
  let isEqualError :=
    (match a.error, b.error with
     | some x, some y => x.cls == y.cls && x.args == y.args
     | _, _ => false) || pyEqOptExc a.error b.error
  let isEqualValue := a.value == b.value
  isEqualValue && isEqualError

/-- Python's `isinstance` check restricted to the builtin exception classes
exercised here: every class is an instance of itself, and `ValueError` is a
subclass of `Exception`, both being subclasses of `BaseException`. -/
def pySubclass (c d : String) : Bool :=
  c == d || (c == "ValueError" && d == "Exception") ||
    (d == "BaseException" && (c == "Exception" || c == "ValueError"))

/-- `Result.__eq_result__` from the flat `src/deepblu/result.py`: identical
to the package variant except that the class check is
`isinstance(self.error, type(other.error))`, tolerating a subclass on the
left (the `self.error and other.error` truthiness guard is equivalent to a
non-null check, exception objects being always truthy). -/
def eqResultFlat (a b : Result) : Bool :=
  let isEqualError :=
    (match a.error, b.error with
     | some x, some y => pySubclass x.cls y.cls && x.args == y.args
     | _, _ => false) || pyEqOptExc a.error b.error
  let isEqualValue := a.value == b.value
  isEqualValue && isEqualError

/-- `Result.ok(value)`: `Result(value=value, error=None)` with `is_ok`
defaulting to `True`. -/
def Result.ok (value : PyV) : Except String Result :=
  resultMk value none true

/-- `Result.err(error)` from `src/deepblu/result/__init__.py`:
`Result(value=None, is_ok=False, error=error)`. -/
def Result.err (error : Option ExcObj) : Except String Result :=
  resultMk PyV.vnone error false

/-- The free function `ok(value)`: delegates to `Result.ok`. -/
def ok (value : PyV) : Except String Result :=
  Result.ok value

/-- The free function `error(err)`: delegates to `Result.err`.  The
`isinstance(error, str)` branch coerces a plain message string to
`Exception(message)`; string arguments lie outside the embedded domain here
since every claim applies `error` to an exception object or `None`. -/
def error (err : Option ExcObj) : Except String Result :=
  Result.err err

/-- `monadic(func)` applied to one argument: run `func`; wrap a normal
return value as `ok(value)`; catch a raised error `e` and return `error(e)`.
A Python function that may raise is embedded as a map into
`Except ExcObj PyV`; raised errors are `Exception` instances (the declared
bound of `TError`). -/
def monadic (f : PyV → Except ExcObj PyV) (x : PyV) : Except String Result :=
  match f x with
  | Except.ok v => ok v
  | Except.error e => error (some e)

theorem dlookup_dinsert_self {α : Type} (l : List (Nat × α)) (k : Nat)
    (v : α) : dlookup (dinsert l k v) k = some v := by
  induction l with
  | nil => simp [dinsert, dlookup]
  | cons hd tl ih =>
      obtain ⟨k', v'⟩ := hd
      by_cases h : k' = k
      · subst h
        simp [dinsert, dlookup]
      · simp [dinsert, dlookup, h, ih]

theorem dlookup_dinsert_ne {α : Type} (l : List (Nat × α)) {k j : Nat}
    (v : α) (h : k ≠ j) : dlookup (dinsert l k v) j = dlookup l j := by
  induction l with
  | nil => simp [dinsert, dlookup, h]
  | cons hd tl ih =>
      obtain ⟨k', v'⟩ := hd
      by_cases hk : k' = k
      · subst hk
        simp [dinsert, dlookup, h]
      · simp [dinsert, dlookup, hk, ih]

theorem dinsert_eq_of_lookup {α : Type} {l : List (Nat × α)} {k : Nat}
    {v : α} (h : dlookup l k = some v) : dinsert l k v = l := by
  induction l with
  | nil => simp [dlookup] at h
  | cons hd tl ih =>
      obtain ⟨k', v'⟩ := hd
      by_cases hk : k' = k
      · subst hk
        simp [dlookup] at h
        simp [dinsert, h]
      · simp [dlookup, hk] at h
        simp [dinsert, hk, ih h]

theorem ProviderRegistry.get_cached {r : ProviderRegistry} {i : Interface}
    {v : Value} (h : dlookup r.instances i = some v) :
    r.get i = some (v, r) := by
  unfold ProviderRegistry.get
  rw [h]
  simp only [dinsert_eq_of_lookup h]

theorem ProviderRegistry.get_uncached {r : ProviderRegistry} {i : Interface}
    {d : ProviderDesc} (h1 : dlookup r.instances i = none)
    (h2 : dlookup r.bindings i = some d) :
    r.get i = some ((invoke d r.fresh).1,
      { r with instances := dinsert r.instances i (invoke d r.fresh).1,
               fresh := (invoke d r.fresh).2 }) := by
  unfold ProviderRegistry.get
  rw [h1, h2]

theorem ProviderRegistry.get_isSome_of_bound {r : ProviderRegistry}
    {i : Interface} (h : (dlookup r.bindings i).isSome) :
    (r.get i).isSome := by
  cases hc : dlookup r.instances i with
  | some v => rw [ProviderRegistry.get_cached hc]; rfl
  | none =>
      cases hb : dlookup r.bindings i with
      | none => rw [hb] at h; simp at h
      | some d => rw [ProviderRegistry.get_uncached hc hb]; rfl

theorem ProviderRegistry.get_bindings_eq {r : ProviderRegistry}
    {i : Interface} {v : Value} {s : ProviderRegistry}
    (h : r.get i = some (v, s)) : s.bindings = r.bindings := by
  unfold ProviderRegistry.get at h
  cases hc : dlookup r.instances i with
  | some w =>
      rw [hc] at h
      injection h with h'
      cases h'
      rfl
  | none =>
      rw [hc] at h
      cases hb : dlookup r.bindings i with
      | some d =>
          rw [hb] at h
          injection h with h'
          cases h'
          rfl
      | none => rw [hb] at h; exact absurd h (by simp)

theorem ProviderRegistry.get_self_cached {r : ProviderRegistry}
    {i : Interface} {v : Value} {s : ProviderRegistry}
    (h : r.get i = some (v, s)) : dlookup s.instances i = some v := by
  unfold ProviderRegistry.get at h
  cases hc : dlookup r.instances i with
  | some w =>
      rw [hc] at h
      injection h with h'
      cases h'
      exact dlookup_dinsert_self _ _ _
  | none =>
      rw [hc] at h
      cases hb : dlookup r.bindings i with
      | some d =>
          rw [hb] at h
          injection h with h'
          cases h'
          exact dlookup_dinsert_self _ _ _
      | none => rw [hb] at h; exact absurd h (by simp)

theorem ProviderRegistry.get_instances_mono {r : ProviderRegistry}
    {i : Interface} {v : Value} {s : ProviderRegistry}
    (h : r.get i = some (v, s)) {j : Interface} {w : Value}
    (hj : dlookup r.instances j = some w) :
    dlookup s.instances j = some w := by
  unfold ProviderRegistry.get at h
  cases hc : dlookup r.instances i with
  | some u =>
      rw [hc] at h
      injection h with h'
      cases h'
      by_cases hij : i = j
      · subst hij
        rw [dlookup_dinsert_self]
        rw [hc] at hj
        exact hj
      · rw [dlookup_dinsert_ne _ _ hij]
        exact hj
  | none =>
      rw [hc] at h
      cases hb : dlookup r.bindings i with
      | some d =>
          rw [hb] at h
          injection h with h'
          cases h'
          by_cases hij : i = j
          · subst hij
            rw [hc] at hj
            exact absurd hj (by simp)
          · rw [dlookup_dinsert_ne _ _ hij]
            exact hj
      | none => rw [hb] at h; exact absurd h (by simp)

theorem injectMergeS_cons_resolved {name : PName} {ann : Interface}
    {tl : List (PName × Interface)} {kw : List (PName × Value)}
    {r : ProviderRegistry} {v : Value} {s : ProviderRegistry}
    (hg : ((dlookup r.bindings ann).isSome && (dlookup kw name).isNone) = true)
    (hget : r.get ann = some (v, s)) :
    injectMergeS ((name, ann) :: tl) kw r =
      injectMergeS tl (dinsert kw name v) s := by
  simp only [injectMergeS]
  rw [if_pos hg, hget]

theorem injectMergeS_cons_skip {name : PName} {ann : Interface}
    {tl : List (PName × Interface)} {kw : List (PName × Value)}
    {r : ProviderRegistry}
    (hg : ((dlookup r.bindings ann).isSome &&
      (dlookup kw name).isNone) = false) :
    injectMergeS ((name, ann) :: tl) kw r = injectMergeS tl kw r := by
  simp only [injectMergeS]
  rw [if_neg (by rw [hg]; exact Bool.false_ne_true)]

theorem get_shape_of_bound {r : ProviderRegistry} {i : Interface}
    (h : (dlookup r.bindings i).isSome = true) :
    ∃ v s, r.get i = some (v, s) := by
  have hs := ProviderRegistry.get_isSome_of_bound h
  cases hget : r.get i with
  | none => rw [hget] at hs; simp at hs
  | some p =>
      obtain ⟨v, s⟩ := p
      exact ⟨v, s, rfl⟩

theorem merge_bindings_eq (anns : List (PName × Interface)) :
    ∀ (kw : List (PName × Value)) (r : ProviderRegistry),
    ((injectMergeS anns kw r).2).bindings = r.bindings := by
  induction anns with
  | nil => intro kw r; rfl
  | cons hd tl ih =>
      intro kw r
      obtain ⟨name, ann⟩ := hd
      cases hg : ((dlookup r.bindings ann).isSome &&
          (dlookup kw name).isNone) with
      | false =>
          rw [injectMergeS_cons_skip hg]
          exact ih kw r
      | true =>
          rw [Bool.and_eq_true] at hg
          obtain ⟨v, s, hget⟩ := get_shape_of_bound hg.1
          rw [injectMergeS_cons_resolved
            (by rw [Bool.and_eq_true]; exact hg) hget]
          exact (ih (dinsert kw name v) s).trans
            (ProviderRegistry.get_bindings_eq hget)

theorem merge_instances_mono (anns : List (PName × Interface)) :
    ∀ (kw : List (PName × Value)) (r : ProviderRegistry) (j : Interface)
    (w : Value), dlookup r.instances j = some w →
    dlookup ((injectMergeS anns kw r).2).instances j = some w := by
  induction anns with
  | nil => intro kw r j w hj; exact hj
  | cons hd tl ih =>
      intro kw r j w hj
      obtain ⟨name, ann⟩ := hd
      cases hg : ((dlookup r.bindings ann).isSome &&
          (dlookup kw name).isNone) with
      | false =>
          rw [injectMergeS_cons_skip hg]
          exact ih kw r j w hj
      | true =>
          obtain ⟨v, s, hget⟩ :=
            get_shape_of_bound (Bool.and_eq_true _ _ ▸ hg).1
          rw [injectMergeS_cons_resolved hg hget]
          exact ih (dinsert kw name v) s j w
            (ProviderRegistry.get_instances_mono hget hj)

theorem merge_kwargs_mono (anns : List (PName × Interface)) :
    ∀ (kw : List (PName × Value)) (r : ProviderRegistry) (n : PName)
    (v : Value), dlookup kw n = some v →
    dlookup ((injectMergeS anns kw r).1) n = some v := by
  induction anns with
  | nil => intro kw r n v hn; exact hn
  | cons hd tl ih =>
      intro kw r n v hn
      obtain ⟨name, ann⟩ := hd
      cases hg : ((dlookup r.bindings ann).isSome &&
          (dlookup kw name).isNone) with
      | false =>
          rw [injectMergeS_cons_skip hg]
          exact ih kw r n v hn
      | true =>
          obtain ⟨vv, s, hget⟩ :=
            get_shape_of_bound (Bool.and_eq_true _ _ ▸ hg).1
          rw [injectMergeS_cons_resolved hg hget]
          have hne : name ≠ n := by
            intro he
            subst he
            rw [hn] at hg
            simp at hg
          exact ih (dinsert kw name vv) s n v
            (by rw [dlookup_dinsert_ne _ _ hne]; exact hn)

theorem merge_fills (anns : List (PName × Interface)) :
    ∀ (kw : List (PName × Value)) (r : ProviderRegistry) (n : PName)
    (i : Interface), (n, i) ∈ anns →
    (dlookup r.bindings i).isSome = true →
    (dlookup ((injectMergeS anns kw r).1) n).isSome = true := by
  induction anns with
  | nil => intro kw r n i hmem; exact absurd hmem (List.not_mem_nil _)
  | cons hd tl ih =>
      intro kw r n i hmem hb
      obtain ⟨name, ann⟩ := hd
      rw [List.mem_cons, Prod.mk.injEq] at hmem
      cases hg : ((dlookup r.bindings ann).isSome &&
          (dlookup kw name).isNone) with
      | false =>
          rw [injectMergeS_cons_skip hg]
          rcases hmem with ⟨h1, h2⟩ | hmem
          · subst h1
            subst h2
            rw [hb] at hg
            rw [Bool.true_and] at hg
            have hkw : ∃ w, dlookup kw n = some w := by
              cases hkw : dlookup kw n with
              | none => rw [hkw] at hg; simp at hg
              | some w => exact ⟨w, rfl⟩
            obtain ⟨w, hw⟩ := hkw
            rw [merge_kwargs_mono tl kw r n w hw]
            rfl
          · exact ih kw r n i hmem hb
      | true =>
          obtain ⟨vv, s, hget⟩ :=
            get_shape_of_bound (Bool.and_eq_true _ _ ▸ hg).1
          rw [injectMergeS_cons_resolved hg hget]
          by_cases hnm : name = n
          · subst hnm
            rw [merge_kwargs_mono tl (dinsert kw name vv) s name vv
              (dlookup_dinsert_self _ _ _)]
            rfl
          · rcases hmem with ⟨h1, h2⟩ | hmem
            · exact absurd h1.symm hnm
            · exact ih (dinsert kw name vv) s n i hmem
                (by rw [ProviderRegistry.get_bindings_eq hget]; exact hb)

theorem merge_repeat (anns : List (PName × Interface)) :
    ∀ (kw k' : List (PName × Value)) (r r' : ProviderRegistry),
    injectMergeS anns kw r = (k', r') →
    injectMergeS anns kw r' = (k', r') := by
  induction anns with
  | nil =>
      intro kw k' r r' h
      injection h with h1 h2
      subst h1
      subst h2
      rfl
  | cons hd tl ih =>
      intro kw k' r r' h
      obtain ⟨name, ann⟩ := hd
      cases hg : ((dlookup r.bindings ann).isSome &&
          (dlookup kw name).isNone) with
      | false =>
          rw [injectMergeS_cons_skip hg] at h
          have hrb : r'.bindings = r.bindings := by
            have h2 := merge_bindings_eq tl kw r
            rw [h] at h2
            exact h2
          rw [injectMergeS_cons_skip (by rw [hrb]; exact hg)]
          exact ih kw k' r r' h
      | true =>
          obtain ⟨v, s, hget⟩ :=
            get_shape_of_bound (Bool.and_eq_true _ _ ▸ hg).1
          rw [injectMergeS_cons_resolved hg hget] at h
          have hrb : r'.bindings = r.bindings := by
            have h2 := merge_bindings_eq tl (dinsert kw name v) s
            rw [h] at h2
            exact h2.trans (ProviderRegistry.get_bindings_eq hget)
          have hcache : dlookup r'.instances ann = some v := by
            have h2 := merge_instances_mono tl (dinsert kw name v) s ann v
              (ProviderRegistry.get_self_cached hget)
            rw [h] at h2
            exact h2
          rw [injectMergeS_cons_resolved (by rw [hrb]; exact hg)
            (ProviderRegistry.get_cached hcache)]
          exact ih (dinsert kw name v) k' s r' h

/-- A sequence of `bind` calls applied in order (the "rebinding in between"
of the memoization invariant). -/
def bindSeq (bs : List (Interface × ProviderDesc)) (r : ProviderRegistry) :
    ProviderRegistry :=
  bs.foldl (fun s p => s.bind p.1 p.2) r

theorem bindSeq_instances_eq (bs : List (Interface × ProviderDesc)) :
    ∀ (r : ProviderRegistry), (bindSeq bs r).instances = r.instances := by
  induction bs with
  | nil => intro r; rfl
  | cons hd tl ih => intro r; exact ih (r.bind hd.1 hd.2)

theorem bindAll_instances_eq (bs : List BindingSpec) :
    ∀ (r : ProviderRegistry), (bindAll bs r).instances = r.instances := by
  induction bs with
  | nil => intro r; rfl
  | cons hd tl ih =>
      intro r
      cases hd with
      | pair i d => exact ih (r.bind i d)
      | bare p => exact ih (r.bind p (ProviderDesc.simple p))

theorem ProviderRegistry.get_none_of_unbound {r : ProviderRegistry}
    {i : Interface} (h1 : dlookup r.instances i = none)
    (h2 : dlookup r.bindings i = none) : r.get i = none := by
  unfold ProviderRegistry.get
  rw [h1, h2]

/-- C1: for every interface I and provider P, after `bind(I, P)`, `get(I)`
resolves to an instance produced by P (a fresh allocation of P); under the
singleton semantics of `ProviderRegistry.get` a second `get(I)` returns the
identity-same instance (same allocation stamp, unchanged state); and under
the lazy-factory semantics `get(I)` returns the provider P itself
unchanged. -/
theorem c1_bind_get_semantics (r : ProviderRegistry) (I : Interface)
    (P : ProviderId) (hI : dlookup r.instances I = none) :
    ∃ r₁, (r.bind I (ProviderDesc.simple P)).get I
        = some (Value.inst P r.fresh, r₁)
      ∧ r₁.get I = some (Value.inst P r.fresh, r₁)
      ∧ lazyGet (r.bind I (ProviderDesc.simple P)) I
        = some (ProviderDesc.simple P) := by
  have hI' : dlookup (r.bind I (ProviderDesc.simple P)).instances I = none :=
    hI
  have h2 : dlookup (r.bind I (ProviderDesc.simple P)).bindings I
      = some (ProviderDesc.simple P) := dlookup_dinsert_self _ _ _
  have hg := ProviderRegistry.get_uncached hI' h2
  refine ⟨_, hg, ?_, ?_⟩
  · exact ProviderRegistry.get_cached (dlookup_dinsert_self _ _ _)
  · exact dlookup_dinsert_self _ _ _

theorem c1_bind_get_semantics_witness :
    ∃ r₁, ((ProviderRegistry.empty).bind 0 (ProviderDesc.simple 1)).get 0
        = some (Value.inst 1 0, r₁)
      ∧ r₁.get 0 = some (Value.inst 1 0, r₁)
      ∧ lazyGet ((ProviderRegistry.empty).bind 0 (ProviderDesc.simple 1)) 0
        = some (ProviderDesc.simple 1) :=
  c1_bind_get_semantics ProviderRegistry.empty 0 1 (by decide)

/-- C2: applying the `module` decorator to a module type declared with
providers `[A, B]` records the metadata and immediately binds A and B into
the registry, so `get(A)` and `get(B)` succeed with no further `bind` call;
the providers of a module that is only listed in `imports` (and never itself
decorated) remain unresolvable: a provider C of such a sibling module, not
bound by anyone, still fails to resolve. -/
theorem c2_module_registration (r : ProviderRegistry) (imp : List Nat)
    (A B C : ProviderId) (hCb : dlookup r.bindings C = none)
    (hCi : dlookup r.instances C = none) (hCA : C ≠ A) (hCB : C ≠ B) :
    (moduleDecorator imp [BindingSpec.bare A, BindingSpec.bare B] r).1
        = ⟨imp, [BindingSpec.bare A, BindingSpec.bare B]⟩
      ∧ (((moduleDecorator imp [BindingSpec.bare A, BindingSpec.bare B]
          r).2).get A).isSome = true
      ∧ (((moduleDecorator imp [BindingSpec.bare A, BindingSpec.bare B]
          r).2).get B).isSome = true
      ∧ ((moduleDecorator imp [BindingSpec.bare A, BindingSpec.bare B]
          r).2).get C = none := by
  refine ⟨rfl, ?_, ?_, ?_⟩
  · apply ProviderRegistry.get_isSome_of_bound
    show (dlookup (dinsert (dinsert r.bindings A (ProviderDesc.simple A)) B
      (ProviderDesc.simple B)) A).isSome = true
    by_cases hba : B = A
    · subst hba
      rw [dlookup_dinsert_self]
      rfl
    · rw [dlookup_dinsert_ne _ _ hba, dlookup_dinsert_self]
      rfl
  · apply ProviderRegistry.get_isSome_of_bound
    show (dlookup (dinsert (dinsert r.bindings A (ProviderDesc.simple A)) B
      (ProviderDesc.simple B)) B).isSome = true
    rw [dlookup_dinsert_self]
    rfl
  · apply ProviderRegistry.get_none_of_unbound
    · exact hCi
    · show dlookup (dinsert (dinsert r.bindings A (ProviderDesc.simple A)) B
        (ProviderDesc.simple B)) C = none
      rw [dlookup_dinsert_ne _ _ (Ne.symm hCB),
        dlookup_dinsert_ne _ _ (Ne.symm hCA), hCb]

theorem c2_module_registration_witness :
    (moduleDecorator [9] [BindingSpec.bare 4, BindingSpec.bare 5]
        ProviderRegistry.empty).1
      = ⟨[9], [BindingSpec.bare 4, BindingSpec.bare 5]⟩
    ∧ (((moduleDecorator [9] [BindingSpec.bare 4, BindingSpec.bare 5]
        ProviderRegistry.empty).2).get 4).isSome = true
    ∧ (((moduleDecorator [9] [BindingSpec.bare 4, BindingSpec.bare 5]
        ProviderRegistry.empty).2).get 5).isSome = true
    ∧ ((moduleDecorator [9] [BindingSpec.bare 4, BindingSpec.bare 5]
        ProviderRegistry.empty).2).get 6 = none :=
  c2_module_registration ProviderRegistry.empty [9] 4 5 6 (by decide)
    (by decide) (by decide) (by decide)

/-- C5: binding the pair returned by `provide_many(I, [A, B])` and then
resolving I yields the ordered list of one fresh instance of A followed by
one fresh instance of B: A is instantiated first (allocation stamp
`r.fresh`), B second (stamp `r.fresh + 1`), in declaration order. -/
theorem c5_provide_many_order (r : ProviderRegistry) (I : Interface)
    (A B : ProviderId) (hI : dlookup r.instances I = none) :
    ∃ r₁, (r.bind (provideMany I [A, B]).1 (provideMany I [A, B]).2).get I
      = some (Value.vlist [(A, r.fresh), (B, r.fresh + 1)], r₁) := by
  have hI' : dlookup (r.bind I (ProviderDesc.many [A, B])).instances I
      = none := hI
  have h2 : dlookup (r.bind I (ProviderDesc.many [A, B])).bindings I
      = some (ProviderDesc.many [A, B]) := dlookup_dinsert_self _ _ _
  exact ⟨_, ProviderRegistry.get_uncached hI' h2⟩

theorem c5_provide_many_order_witness :
    ∃ r₁, ((ProviderRegistry.empty).bind (provideMany 1 [7, 8]).1
        (provideMany 1 [7, 8]).2).get 1
      = some (Value.vlist [(7, 0), (8, 1)], r₁) :=
  c5_provide_many_order ProviderRegistry.empty 1 7 8 (by decide)

/-- C9: once `ProviderRegistry.get(I)` has returned an instance x, every
subsequent `get(I)` returns the identity-same x even after an arbitrary
sequence of `bind` calls (rebinding I included): `bind` only writes the
bindings map and never removes or replaces an entry of the memoized
instance cache, and the later `get` leaves the registry unchanged. -/
theorem c9_memoized_get_survives_rebind (r : ProviderRegistry)
    (I : Interface) (x : Value) (r₁ : ProviderRegistry)
    (bs : List (Interface × ProviderDesc)) (h : r.get I = some (x, r₁)) :
    (bindSeq bs r₁).get I = some (x, bindSeq bs r₁) := by
  apply ProviderRegistry.get_cached
  rw [bindSeq_instances_eq]
  exact ProviderRegistry.get_self_cached h

theorem c9_memoized_get_survives_rebind_witness :
    (bindSeq [(0, ProviderDesc.simple 3)]
        (ProviderRegistry.mk [(0, ProviderDesc.simple 2)]
          [(0, Value.inst 2 0)] 1)).get 0
      = some (Value.inst 2 0,
        bindSeq [(0, ProviderDesc.simple 3)]
          (ProviderRegistry.mk [(0, ProviderDesc.simple 2)]
            [(0, Value.inst 2 0)] 1)) :=
  c9_memoized_get_survives_rebind
    (ProviderRegistry.mk [(0, ProviderDesc.simple 2)] [] 0) 0
    (Value.inst 2 0)
    (ProviderRegistry.mk [(0, ProviderDesc.simple 2)]
      [(0, Value.inst 2 0)] 1)
    [(0, ProviderDesc.simple 3)] (by decide)

/-- C3: for every injected callable (singleton-semantics wrapper of
`src/deepblu/di.py`): (1) invoking the same injected callable a second time
reproduces the identical merged arguments and leaves the registry unchanged,
so both invocations receive the identity-same instances; (2) every declared
parameter whose annotated type is bound and that the caller did not supply
is resolved and added to the argument set; (3) the resolved value is
exactly the registry's singleton resolution `ProviderRegistry.get`; (4) two
injected callables sharing a dependency receive the identity-same
instance. -/
theorem c3_inject_singleton_sharing :
    (∀ (anns : List (PName × Interface)) (kw k' : List (PName × Value))
      (r r' : ProviderRegistry), injectMergeS anns kw r = (k', r') →
      injectMergeS anns kw r' = (k', r'))
    ∧ (∀ (anns : List (PName × Interface)) (kw : List (PName × Value))
      (r : ProviderRegistry) (n : PName) (i : Interface), (n, i) ∈ anns →
      (dlookup r.bindings i).isSome = true →
      (dlookup ((injectMergeS anns kw r).1) n).isSome = true)
    ∧ (∀ (n : PName) (i : Interface) (rest : List (PName × Interface))
      (kw : List (PName × Value)) (r : ProviderRegistry),
      (dlookup r.bindings i).isSome = true → (dlookup kw n).isNone = true →
      ∃ v s, r.get i = some (v, s)
        ∧ dlookup ((injectMergeS ((n, i) :: rest) kw r).1) n = some v)
    ∧ (∀ (n₁ n₂ : PName) (i : Interface) (r : ProviderRegistry),
      (dlookup r.bindings i).isSome = true →
      ∃ v s, r.get i = some (v, s)
        ∧ dlookup ((injectMergeS [(n₁, i)] [] r).1) n₁ = some v
        ∧ dlookup ((injectMergeS [(n₂, i)] []
            ((injectMergeS [(n₁, i)] [] r).2)).1) n₂ = some v) := by
  refine ⟨merge_repeat, merge_fills, ?_, ?_⟩
  · intro n i rest kw r hb hkw
    obtain ⟨v, s, hget⟩ := get_shape_of_bound hb
    have hg : ((dlookup r.bindings i).isSome && (dlookup kw n).isNone)
        = true := by rw [hb, hkw]; rfl
    rw [injectMergeS_cons_resolved hg hget]
    exact ⟨v, s, hget,
      merge_kwargs_mono rest _ s n v (dlookup_dinsert_self _ _ _)⟩
  · intro n₁ n₂ i r hb
    obtain ⟨v, s, hget⟩ := get_shape_of_bound hb
    have hg : ((dlookup r.bindings i).isSome && ((dlookup
        ([] : List (PName × Value)) n₁).isNone)) = true := by
      rw [hb]; rfl
    have h1 : injectMergeS [(n₁, i)] [] r = (dinsert [] n₁ v, s) :=
      injectMergeS_cons_resolved hg hget
    refine ⟨v, s, hget, ?_, ?_⟩
    · rw [h1]
      exact dlookup_dinsert_self _ _ _
    · rw [h1]
      have hcache : dlookup s.instances i = some v :=
        ProviderRegistry.get_self_cached hget
      have hg2 : ((dlookup s.bindings i).isSome && ((dlookup
          ([] : List (PName × Value)) n₂).isNone)) = true := by
        rw [ProviderRegistry.get_bindings_eq hget, hb]; rfl
      rw [injectMergeS_cons_resolved hg2
        (ProviderRegistry.get_cached hcache)]
      exact dlookup_dinsert_self _ _ _

theorem c3_inject_singleton_sharing_witness :
    injectMergeS [(0, 1)]
        [] (ProviderRegistry.mk [(1, ProviderDesc.simple 10)]
          [(1, Value.inst 10 0)] 1)
      = ([(0, Value.inst 10 0)],
        ProviderRegistry.mk [(1, ProviderDesc.simple 10)]
          [(1, Value.inst 10 0)] 1)
    ∧ ∃ v s, (ProviderRegistry.mk [(1, ProviderDesc.simple 10)] [] 0).get 1
          = some (v, s)
        ∧ dlookup ((injectMergeS [(0, 1)] []
            (ProviderRegistry.mk [(1, ProviderDesc.simple 10)] [] 0)).1) 0
          = some v :=
  ⟨c3_inject_singleton_sharing.1 [(0, 1)] [] [(0, Value.inst 10 0)]
      (ProviderRegistry.mk [(1, ProviderDesc.simple 10)] [] 0)
      (ProviderRegistry.mk [(1, ProviderDesc.simple 10)]
        [(1, Value.inst 10 0)] 1) (by decide),
    c3_inject_singleton_sharing.2.2.1 0 1 [] []
      (ProviderRegistry.mk [(1, ProviderDesc.simple 10)] [] 0)
      (by decide) (by decide)⟩

/-- C4 counterexample: the claim says an explicit argument passed "by any
means" is used and resolution is skipped.  Passing the argument positionally
refutes it: with parameter 0 annotated with bound interface 1 and the caller
supplying the argument positionally, the wrapper (which only checks
`kwargs`) still resolves the dependency (the registry state changes), and
the underlying call fails with a duplicate-argument `TypeError` (`none`)
instead of using the explicit argument. -/
theorem c4_explicit_wins_counterexample :
    (injectCallS [0] [(0, 1)] [Value.inst 55 99] []
        (ProviderRegistry.mk [(1, ProviderDesc.simple 10)] [] 0)).1 = none
    ∧ (injectCallS [0] [(0, 1)] [Value.inst 55 99] []
        (ProviderRegistry.mk [(1, ProviderDesc.simple 10)] [] 0)).2
      ≠ ProviderRegistry.mk [(1, ProviderDesc.simple 10)] [] 0 := by
  decide

/-- C4 (amended): when the caller supplies no `x` argument, the call
receives `x` bound to the registry's resolution of I; when the caller
supplies `x` as a keyword argument, the explicit argument is used and
resolution of `x` is skipped (the wrapper never overrides a caller-supplied
keyword, and the call passes the caller's value through unchanged); an
argument supplied positionally, however, is not detected: resolution still
occurs and the call fails with a duplicate-argument `TypeError`. -/
theorem c4_explicit_keyword_wins :
    (∀ (anns : List (PName × Interface)) (kw : List (PName × Value))
      (r : ProviderRegistry) (n : PName) (v : Value),
      dlookup kw n = some v →
      dlookup ((injectMergeS anns kw r).1) n = some v)
    ∧ (∀ (n : PName) (i : Interface) (r : ProviderRegistry) (w : Value),
      injectCallS [n] [(n, i)] [] [(n, w)] r = (some [(n, w)], r))
    ∧ (∀ (n : PName) (i : Interface) (r : ProviderRegistry),
      (dlookup r.bindings i).isSome = true →
      ∃ v s, r.get i = some (v, s)
        ∧ injectCallS [n] [(n, i)] [] [] r = (some [(n, v)], s))
    ∧ (∀ (n : PName) (i : Interface) (r : ProviderRegistry) (w : Value),
      (dlookup r.bindings i).isSome = true →
      (injectCallS [n] [(n, i)] [w] [] r).1 = none) := by
  refine ⟨merge_kwargs_mono, ?_, ?_, ?_⟩
  · intro n i r w
    have hkw : dlookup [(n, w)] n = some w := by simp [dlookup]
    have hg : ((dlookup r.bindings i).isSome
        && (dlookup [(n, w)] n).isNone) = false := by
      rw [hkw]
      exact Bool.and_false _
    unfold injectCallS
    rw [injectMergeS_cons_skip hg]
    simp [injectMergeS, bindArgs, dlookup]
  · intro n i r hb
    obtain ⟨v, s, hget⟩ := get_shape_of_bound hb
    have hg : ((dlookup r.bindings i).isSome && ((dlookup
        ([] : List (PName × Value)) n).isNone)) = true := by
      rw [hb]; rfl
    refine ⟨v, s, hget, ?_⟩
    unfold injectCallS
    rw [injectMergeS_cons_resolved hg hget]
    simp [injectMergeS, bindArgs, dlookup, dinsert]
  · intro n i r w hb
    obtain ⟨v, s, hget⟩ := get_shape_of_bound hb
    have hg : ((dlookup r.bindings i).isSome && ((dlookup
        ([] : List (PName × Value)) n).isNone)) = true := by
      rw [hb]; rfl
    unfold injectCallS
    rw [injectMergeS_cons_resolved hg hget]
    simp [injectMergeS, bindArgs, dinsert]

theorem c4_explicit_keyword_wins_witness :
    injectCallS [0] [(0, 1)] [] [(0, Value.inst 55 99)]
        (ProviderRegistry.mk [(1, ProviderDesc.simple 10)] [] 0)
      = (some [(0, Value.inst 55 99)],
        ProviderRegistry.mk [(1, ProviderDesc.simple 10)] [] 0)
    ∧ (injectCallS [0] [(0, 1)] [Value.inst 55 99] []
        (ProviderRegistry.mk [(1, ProviderDesc.simple 10)] [] 0)).1
      = none :=
  ⟨c4_explicit_keyword_wins.2.1 0 1
      (ProviderRegistry.mk [(1, ProviderDesc.simple 10)] [] 0)
      (Value.inst 55 99),
    c4_explicit_keyword_wins.2.2.2 0 1
      (ProviderRegistry.mk [(1, ProviderDesc.simple 10)] [] 0)
      (Value.inst 55 99) (by decide)⟩

/-- C6: constructing `Result(value=v, error=e, is_ok=True)` with non-null e
raises `ValueError` immediately at construction for every v; construction
with `error=None` (any `is_ok`) or with `is_ok=False` (any error)
succeeds. -/
theorem c6_result_construction (v : PyV) (e : ExcObj) (e' : Option ExcObj)
    (b : Bool) :
    resultMk v (some e) true
        = Except.error "Result cannot be both ok and error"
      ∧ resultMk v none b = Except.ok ⟨v, none, b⟩
      ∧ resultMk v e' false = Except.ok ⟨v, e', false⟩ := by
  refine ⟨rfl, ?_, rfl⟩
  simp [resultMk]

/-- C7: for every function f and input x, `monadic(f)(x)` returns
`ok(f(x))` when f completes normally on x and `error(e)` when f raises e on
x; the wrapper never re-raises (it always returns a constructed
`Result`). -/
theorem c7_monadic (f : PyV → Except ExcObj PyV) (x : PyV) :
    (∃ res, monadic f x = Except.ok res)
      ∧ (∀ v, f x = Except.ok v → monadic f x = Except.ok ⟨v, none, true⟩)
      ∧ (∀ e, f x = Except.error e →
          monadic f x = Except.ok ⟨PyV.vnone, some e, false⟩) := by
  cases hf : f x with
  | ok v =>
      refine ⟨⟨⟨v, none, true⟩, ?_⟩, ?_, ?_⟩
      · simp [monadic, hf, ok, Result.ok, resultMk]
      · intro v' hv
        injection hv with hv'
        subst hv'
        simp [monadic, hf, ok, Result.ok, resultMk]
      · intro e he
        exact absurd he (by simp)
  | error e =>
      refine ⟨⟨⟨PyV.vnone, some e, false⟩, ?_⟩, ?_, ?_⟩
      · simp [monadic, hf, error, Result.err, resultMk]
      · intro v' hv
        exact absurd hv (by simp)
      · intro e' he
        injection he with he'
        subst he'
        simp [monadic, hf, error, Result.err, resultMk]

/-- The §8 example function for `monadic`: raises `ValueError("x")` on
input `""` and returns `"y"` (the lowercase of `"Y"`) on other inputs. -/
def monadicExample (x : PyV) : Except ExcObj PyV :=
  if x = PyV.vstr "" then
    Except.error ⟨"ValueError", [PyV.vstr "x"], 7⟩
  else Except.ok (PyV.vstr "y")

theorem c7_monadic_witness :
    monadic monadicExample (PyV.vstr "Y")
        = Except.ok ⟨PyV.vstr "y", none, true⟩
      ∧ monadic monadicExample (PyV.vstr "")
        = Except.ok ⟨PyV.vnone,
            some ⟨"ValueError", [PyV.vstr "x"], 7⟩, false⟩ :=
  ⟨(c7_monadic monadicExample (PyV.vstr "Y")).2.1 _
      (by simp [monadicExample]),
    (c7_monadic monadicExample (PyV.vstr "")).2.2 _
      (by simp [monadicExample])⟩

/-- C8 counterexample: in the flat `src/deepblu/result.py` variant the
class check is `isinstance`, so the error variant wrapping
`ValueError("a")` compares equal to the one wrapping `Exception("a")` even
though the classes differ (refuting "equal exactly when same class"), while
the reversed comparison is false (refuting symmetry). -/
theorem c8_result_equality_counterexample :
    eqResultFlat
        ⟨PyV.vnone, some ⟨"ValueError", [PyV.vstr "a"], 1⟩, false⟩
        ⟨PyV.vnone, some ⟨"Exception", [PyV.vstr "a"], 2⟩, false⟩ = true
      ∧ eqResultFlat
        ⟨PyV.vnone, some ⟨"Exception", [PyV.vstr "a"], 2⟩, false⟩
        ⟨PyV.vnone, some ⟨"ValueError", [PyV.vstr "a"], 1⟩, false⟩ = false
      ∧ ("ValueError" : String) ≠ "Exception" := by
  decide

theorem eqResult_char (a b : Result) :
    eqResult a b = true ↔ a.value = b.value ∧
      ((a.error = none ∧ b.error = none) ∨
        ∃ x y, a.error = some x ∧ b.error = some y ∧ x.cls = y.cls
          ∧ x.args = y.args) := by
  rcases a with ⟨va, ea, ba⟩
  rcases b with ⟨vb, eb, bb⟩
  rcases ea with _ | x <;> rcases eb with _ | y <;>
    simp [eqResult, pyEqOptExc]
  intro _ h
  subst h
  exact ⟨rfl, rfl⟩

/-- C8 (amended): in the package variant `src/deepblu/result/__init__.py`,
two Results compare equal iff their values compare equal and their errors
are both null or are non-null with the same class and the same constructor
arguments (distinct instances included), and this equality is symmetric; in
the flat `src/deepblu/result.py` variant the class check is
`isinstance`-based, so an error of a subclass compares equal to a
same-arguments error of a superclass in one direction only, and that
variant's equality is not symmetric. -/
theorem c8_result_equality_amended (a b : Result) :
    (eqResult a b = true ↔ a.value = b.value ∧
      ((a.error = none ∧ b.error = none) ∨
        ∃ x y, a.error = some x ∧ b.error = some y ∧ x.cls = y.cls
          ∧ x.args = y.args))
    ∧ (eqResult a b = eqResult b a) := by
  refine ⟨eqResult_char a b, ?_⟩
  have hs : ∀ (c d : Result), eqResult c d = true → eqResult d c = true := by
    intro c d h
    rw [eqResult_char] at h ⊢
    obtain ⟨h1, h2⟩ := h
    refine ⟨h1.symm, ?_⟩
    rcases h2 with ⟨hn1, hn2⟩ | ⟨x, y, hx, hy, hc, ha⟩
    · exact Or.inl ⟨hn2, hn1⟩
    · exact Or.inr ⟨y, x, hy, hx, hc.symm, ha.symm⟩
  cases hab : eqResult a b with
  | true => exact (hs a b hab).symm
  | false =>
      cases hba : eqResult b a with
      | true => rw [hs b a hba] at hab; exact hab.symm
      | false => rfl

/-- C10: `Result` equality compares only the value and error fields, never
the `is_ok` flag: replacing the flags of either side by arbitrary booleans
leaves the comparison unchanged, and in particular the ok result with null
value compares equal to the error result with null error,
`ok() == error()`. -/
theorem c10_eq_ignores_is_ok (a b : Result) (b1 b2 : Bool) :
    eqResult a b = eqResult ⟨a.value, a.error, b1⟩ ⟨b.value, b.error, b2⟩
    ∧ ∃ ra rb, ok PyV.vnone = Except.ok ra ∧ error none = Except.ok rb
        ∧ ra.is_ok = true ∧ rb.is_ok = false ∧ eqResult ra rb = true := by
  exact ⟨rfl, ⟨PyV.vnone, none, true⟩, ⟨PyV.vnone, none, false⟩,
    rfl, rfl, rfl, rfl, rfl⟩

end Deepblu
